import Mathlib

/-!
Shallow embedding of `toolz/traced.py` (alternate traced namespace for toolz):
the memoizer (`memoize` / inner `memof`), the composer (`compose`), the name
sanitizer (`_clean_name`, `_safe_funcname`) and the tracing wrapper (`trace`),
together with theorems settling the specified properties.

Python values are embedded as `PyVal`, Python exceptions as `PyErr`, and a
Python callable as a `Callable` record carrying its introspection metadata
(`func_name`, `__name__`, `__doc__`, `repr`) together with its call behaviour
as a pure function from positional arguments and keyword arguments to
`Except PyErr PyVal`.  Stateful code (the memoizer cache dict) is embedded
by explicit state passing: a call takes the cache and returns the result
together with the cache after the call.
-/

namespace Traced

/-- Embedded Python values: enough of the value universe to express the
claims (ints, strings, the hashable `None`, and unhashable lists). -/
inductive PyVal where
  | pynone : PyVal
  | int : Int → PyVal
  | str : String → PyVal
  | list : List PyVal → PyVal

mutual

/-- Python `==` on embedded values (used by dict membership and lookup). -/
def PyVal.beq : PyVal → PyVal → Bool
  | .pynone, .pynone => true
  | .int a, .int b => a == b
  | .str a, .str b => a == b
  | .list a, .list b => PyVal.beqList a b
  | .pynone, .int _ | .pynone, .str _ | .pynone, .list _ => false
  | .int _, .pynone | .int _, .str _ | .int _, .list _ => false
  | .str _, .pynone | .str _, .int _ | .str _, .list _ => false
  | .list _, .pynone | .list _, .int _ | .list _, .str _ => false

/-- Elementwise Python `==` on lists of embedded values. -/
def PyVal.beqList : List PyVal → List PyVal → Bool
  | [], [] => true
  | a :: as, b :: bs => PyVal.beq a b && PyVal.beqList as bs
  | [], _ :: _ => false
  | _ :: _, [] => false

end

/-- Embedded Python exceptions: `TypeError(msg)` and any other exception
(raised by a wrapped user function), identified by a tag. -/
inductive PyErr where
  | typeError : String → PyErr
  | exn : String → PyErr
deriving DecidableEq

/-- Python hashability of an embedded value: ints, strings and `None` are
hashable; a `list` is never hashable (regardless of its elements). -/
def PyVal.hashable : PyVal → Bool
  | .pynone => true
  | .int _ => true
  | .str _ => true
  | .list _ => false

/-- A Python callable: introspection metadata plus pure call behaviour.
`func_name` is the legacy (Python 2) name attribute, `name` is `__name__`,
`doc` is `__doc__`; each is `Option` because reading the attribute can fail
on a general callable.  `rep` is the always-available printable
representation `repr(f)`. -/
structure Callable where
  func_name : Option String
  name : Option String
  doc : Option String
  rep : String
  call : List PyVal → List (String × PyVal) → Except PyErr PyVal

/-- Embedding of `functools.update_wrapper(wrapper, wrapped)`: copy the
identity metadata of `wrapped` (`__name__`, `__doc__`, and thereby the
aliased legacy name attribute of a plain function) onto `wrapper`,
returning `wrapper`. -/
def update_wrapper (wrapper : Callable) (wrapped : Callable) : Callable :=
  { wrapper with name := wrapped.name, func_name := wrapped.name,
                 doc := wrapped.doc }

/-- Modelled from the spec: the external tracer collaborator `toolz.q`
(`tracer.trace`, not under the analysed sources) returns a call-logging
wrapper that forwards all calls and re-raises any exception after logging
it, without suppressing it — behaviourally transparent.  The metadata of
the raw wrapper is that of a fresh helper function; `trace` immediately
overwrites it via `update_wrapper`. -/
def tracer_trace (f : Callable) : Callable :=
  { func_name := some "q_wrapper", name := some "q_wrapper",
    doc := Option.none, rep := f.rep, call := f.call }

/-- Embedding of `trace(f, wrapped=None, name=None)` from `traced.py`:
if `wrapped` is given, re-identify `f` as `wrapped` via `update_wrapper`;
else if `name` is given, set `f.__name__` and `f.func_name` to it;
then wrap with the tracer and copy the (adjusted) metadata of `f` onto the
traced callable. -/
def trace (f : Callable) (wrapped : Option Callable) (nm : Option String) :
    Callable :=
  let f' : Callable :=
    match wrapped with
    | some w => update_wrapper f w
    | Option.none =>
      match nm with
      | some n => { f with name := some n, func_name := some n }
      | Option.none => f
  update_wrapper (tracer_trace f') f'

/-- Embedding of the `traceas(wrapped)` decorator from `traced.py`. -/
def traceas (wrapped : Callable) (f : Callable) : Callable :=
  trace f (some wrapped) Option.none

/-- Embedding of the `tracewithname(name)` decorator from `traced.py`. -/
def tracewithname (nm : String) (f : Callable) : Callable :=
  trace f Option.none (some nm)

/-- ASCII word character: the character class `[0-9a-zA-Z_]` of the first
regex in `_clean_name`. -/
def isWordChar (c : Char) : Bool :=
  (('0' ≤ c && c ≤ '9') || ('a' ≤ c && c ≤ 'z') ||
   ('A' ≤ c && c ≤ 'Z') || c == '_')

/-- ASCII letter or underscore: the character class `[a-zA-Z_]` of the
second regex in `_clean_name`. -/
def isIdentStart (c : Char) : Bool :=
  (('a' ≤ c && c ≤ 'z') || ('A' ≤ c && c ≤ 'Z') || c == '_')

/-- Embedding of the name sanitizer from `traced.py` (source name
prefixed by an underscore): the first regex substitution removes every
character outside the class 0-9a-zA-Z underscore, the second removes the
leading run of characters that are not a letter or underscore, then the
slice to 32 truncates. -/
def clean_name (s : String) : String :=
  let s1 := s.toList.filter isWordChar
  let s2 := s1.dropWhile (fun c => !(isIdentStart c))
  String.mk (s2.take 32)

/-- Embedding of the safe-funcname helper from `traced.py` (source name
prefixed by an underscore): try the legacy `func_name`
attribute, fall back to `__name__`, fall back to `repr(func)`; any failure
to read an attribute (modelled by the `Option` being `none`) falls through
to the next choice. -/
def safe_funcname (f : Callable) : String :=
  match f.func_name with
  | some s => clean_name s
  | Option.none =>
    match f.name with
    | some s => clean_name s
    | Option.none => clean_name f.rep

/-- Modelled from the spec: `identity` as exposed by the traced namespace
(the underlying `toolz.identity` is not under the analysed sources) —
the identity function on a single argument, returning its sole input
unchanged; invoking it otherwise is a `TypeError`. -/
def identity : Callable :=
  { func_name := some "identity", name := some "identity",
    doc := Option.none, rep := "<function identity>",
    call := fun args kwargs =>
      match args, kwargs with
      | [x], [] => .ok x
      | _, _ => .error (.typeError "identity() takes exactly 1 argument") }

/-- The `for f in fns[1:]: ret = f(ret)` loop of `composed` in
`traced.py`: thread the intermediate value through each remaining function,
each applied to the previous result as sole positional argument. -/
def runChain : PyVal → List Callable → Except PyErr PyVal
  | ret, [] => .ok ret
  | ret, f :: fs =>
    match f.call [ret] [] with
    | .ok r => runChain r fs
    | .error e => .error e

/-- Embedding of `compose(*funcs)` from `traced.py`: no functions →
`identity`; one function → that function itself; otherwise reverse the
list, invoke the first of the reversed list (the last listed) with all
arguments, thread the result through the rest, and name the composite
"composed_" followed by the underscore-joined sanitized names of the
listed functions, via `tracewithname`. -/
def compose (funcs : List Callable) : Callable :=
  match funcs with
  | [] => identity
  | [f] => f
  | f1 :: f2 :: rest =>
    let funcs := f1 :: f2 :: rest
    let fns := funcs.reverse
    let funcname :=
      "composed_" ++ String.intercalate "_" (funcs.map safe_funcname)
    tracewithname funcname
      { func_name := some "composed", name := some "composed",
        doc := Option.none, rep := "<function composed>",
        call := fun args kwargs =>
          match fns with
          | [] => .error (.typeError "list index out of range")
          | f0 :: fs =>
            match f0.call args kwargs with
            | .ok r => runChain r fs
            | .error e => .error e }

/-- The memoizer cache: a dict keyed by the positional-argument tuple,
embedded as an association list queried by Python `==`; the most recent
binding wins (keys are inserted only when absent, so at most one binding
per key is ever live). -/
def Cache : Type := List (List PyVal × PyVal)

/-- Dict lookup by Python `==` on the argument tuple. -/
def Cache.lookup : Cache → List PyVal → Option PyVal
  | [], _ => Option.none
  | (k, v) :: rest, key =>
    if PyVal.beqList k key then some v else Cache.lookup rest key

/-- The error raised by `memof` when the argument tuple is not hashable:
`TypeError("Arguments to memoized function must be hashable")` — called
ArgumentsNotHashable in the spec. -/
def ArgumentsNotHashable : PyErr :=
  .typeError "Arguments to memoized function must be hashable"

/-- One call of the wrapper `memof(*args)` built by `memoize(f, cache)` in
`traced.py`, with the cache dict passed and returned explicitly.
A non-empty set of keyword arguments is rejected by the `*args`-only
signature before the body runs (`TypeError` at call binding).  The body:
`args in cache` raises the hashability `TypeError` when the argument tuple
is unhashable; on a hit return the cached value; on a miss invoke
`f(*args)`, store the result under `args`, and return it — when `f`
raises, the store never executes and the exception propagates. -/
def memof (f : List PyVal → Except PyErr PyVal) (cache : Cache)
    (args : List PyVal) (kwargs : List (String × PyVal)) :
    Except PyErr (PyVal × Cache) :=
  if !kwargs.isEmpty then
    .error (.typeError "memof() got an unexpected keyword argument")
  else if !(args.all PyVal.hashable) then
    .error ArgumentsNotHashable
  else
    match cache.lookup args with
    | some v => .ok (v, cache)
    | Option.none =>
      match f args with
      | .ok r => .ok (r, (args, r) :: cache)
      | .error e => .error e

/-- A sequence of positional-only calls to the same memoized wrapper,
threading the cache dict: a call that raises leaves the dict exactly as it
was (the store in `memof` happens only after `f` returns). -/
def memofRun (f : List PyVal → Except PyErr PyVal) :
    List (List PyVal) → Cache → List (Except PyErr PyVal) × Cache
  | [], cache => ([], cache)
  | args :: rest, cache =>
    match memof f cache args [] with
    | .ok (v, cache') =>
      let (outs, c) := memofRun f rest cache'
      (.ok v :: outs, c)
    | .error e =>
      let (outs, c) := memofRun f rest cache
      (.error e :: outs, c)

/-- Example callable: an increment function named inc, as in the doctest
of `compose` (`inc = lambda i: i + 1`). -/
def incFn : Callable :=
  { func_name := some "inc", name := some "inc", doc := Option.none,
    rep := "<function inc>",
    call := fun args kwargs =>
      match args, kwargs with
      | [.int n], [] => .ok (.int (n + 1))
      | _, _ => .error (.typeError "inc() takes exactly 1 argument") }

/-- Example callable: the builtin `str` restricted to integer arguments,
as used in the doctest of `compose` (`compose(str, inc)(3)`). -/
def strFn : Callable :=
  { func_name := some "str", name := some "str", doc := Option.none,
    rep := "<type str>",
    call := fun args kwargs =>
      match args, kwargs with
      | [.int n], [] => .ok (.str (toString n))
      | _, _ => .error (.typeError "str() takes exactly 1 argument") }

/-- Example callable named foo. -/
def fooFn : Callable :=
  { func_name := some "foo", name := some "foo", doc := some "foo doc",
    rep := "<function foo>",
    call := fun _ _ => .ok .pynone }

/-- Example callable named bar. -/
def barFn : Callable :=
  { func_name := some "bar", name := some "bar", doc := some "bar doc",
    rep := "<function bar>",
    call := fun _ _ => .ok .pynone }

/-- Example callable with no readable name attributes, only a printable
representation. -/
def reprOnlyFn : Callable :=
  { func_name := Option.none, name := Option.none, doc := Option.none,
    rep := "<lambda>",
    call := fun _ _ => .ok .pynone }

mutual

/-- Python `==` is reflexive on embedded values. -/
theorem PyVal.beq_refl : ∀ a : PyVal, PyVal.beq a a = true
  | .pynone => rfl
  | .int a => by simp [PyVal.beq]
  | .str a => by simp [PyVal.beq]
  | .list a => by simpa [PyVal.beq] using PyVal.beqList_refl a

/-- Elementwise Python `==` is reflexive on lists of embedded values. -/
theorem PyVal.beqList_refl : ∀ l : List PyVal, PyVal.beqList l l = true
  | [] => rfl
  | a :: as => by
    simp [PyVal.beqList, PyVal.beq_refl a, PyVal.beqList_refl as]

end

/-- Looking up a key just inserted at the front of the cache returns the
inserted value. -/
theorem Cache.lookup_insert (cache : Cache) (args : List PyVal) (y : PyVal) :
    Cache.lookup ((args, y) :: cache) args = some y := by
  simp [Cache.lookup, PyVal.beqList_refl]

/-- The sanitized output of `clean_name` has at most 32 characters. -/
theorem clean_name_length (s : String) : (clean_name s).length ≤ 32 := by
  simp only [clean_name, String.length, String.mk, List.length_take]
  exact Nat.min_le_left _ _

/-- Every character of the sanitized output is a word character. -/
theorem clean_name_wordchars (s : String) :
    (clean_name s).toList.all isWordChar = true := by
  rw [List.all_eq_true]
  intro c hc
  have h1 : c ∈ (s.toList.filter isWordChar).dropWhile
      (fun c => !(isIdentStart c)) :=
    (List.take_sublist _ _).mem hc
  have h2 : c ∈ s.toList.filter isWordChar :=
    (List.dropWhile_sublist _).mem h1
  exact (List.mem_filter.mp h2).2

/-- Taking a positive prefix does not change the optional head. -/
theorem head_take_succ {α : Type} (l : List α) (n : Nat) :
    (l.take (n + 1)).head? = l.head? := by
  cases l <;> simp

/-- The optional head of `dropWhile p l` does not satisfy `p`. -/
theorem head_dropWhile_not {α : Type} (p : α → Bool) :
    ∀ l : List α, ((l.dropWhile p).head?.all fun c => !(p c)) = true
  | [] => rfl
  | a :: as => by
    by_cases h : p a
    · simpa [List.dropWhile_cons, h] using head_dropWhile_not p as
    · simp [List.dropWhile_cons, h]

/-- The sanitized output never starts with a character outside the
letter-or-underscore class (in particular, never with a digit). -/
theorem clean_name_head (s : String) :
    ((clean_name s).toList.head?.all isIdentStart) = true := by
  have h := head_dropWhile_not (fun c => !(isIdentStart c))
      (s.toList.filter isWordChar)
  simp only [Bool.not_not] at h
  simpa [clean_name, String.toList, String.mk,
    show (32 : Nat) = 31 + 1 from rfl, head_take_succ] using h

/-- Calling a composite of at least two functions invokes the last listed
function with all arguments and keyword arguments, then threads the result
through the remaining functions in reverse listed order. -/
theorem compose_call_last (i1 : Callable) (itl : List Callable) (g : Callable)
    (args : List PyVal) (kwargs : List (String × PyVal)) :
    (compose ((i1 :: itl) ++ [g])).call args kwargs =
      match g.call args kwargs with
      | .ok r => runChain r (i1 :: itl).reverse
      | .error e => .error e := by
  cases itl with
  | nil => rfl
  | cons i2 t =>
    have hrev : (i1 :: i2 :: (t ++ [g])).reverse
        = g :: (i1 :: i2 :: t).reverse := by simp
    simp only [List.cons_append, compose, tracewithname, trace,
      update_wrapper, tracer_trace, hrev]

/-- A cache hit: if the key is present, `memof` returns the cached value
and leaves the cache unchanged, for every underlying function. -/
theorem memof_hit (f : List PyVal → Except PyErr PyVal) (cache : Cache)
    (args : List PyVal) (v : PyVal)
    (hh : args.all PyVal.hashable = true)
    (hfound : cache.lookup args = some v) :
    memof f cache args [] = .ok (v, cache) := by
  simp [memof, hh, hfound]

/-- Claim C1: for a pure function and hashable arguments not yet cached,
the memoized wrapper returns exactly the underlying result, the first call
invokes the function once and stores the result in the cache under the
argument tuple, and every subsequent call with the same arguments returns
the cached value without invoking the underlying function (the result of
a subsequent call does not depend on the underlying function at all, and
arbitrarily many repeated calls keep returning the cached value with the
cache unchanged). -/
theorem memoize_transparent (f : List PyVal → Except PyErr PyVal)
    (cache : Cache) (args : List PyVal) (y : PyVal)
    (hh : args.all PyVal.hashable = true)
    (hmiss : cache.lookup args = Option.none)
    (hf : f args = .ok y) :
    memof f cache args [] = .ok (y, (args, y) :: cache)
    ∧ Cache.lookup ((args, y) :: cache) args = some y
    ∧ (∀ g : List PyVal → Except PyErr PyVal,
        memof g ((args, y) :: cache) args [] = .ok (y, (args, y) :: cache))
    ∧ ∀ n : Nat, memofRun f (List.replicate n args) ((args, y) :: cache)
        = (List.replicate n (Except.ok y), (args, y) :: cache) := by
  have hstep : memof f cache args [] = .ok (y, (args, y) :: cache) := by
    simp [memof, hh, hmiss, hf]
  have hhit : ∀ g : List PyVal → Except PyErr PyVal,
      memof g ((args, y) :: cache) args [] = .ok (y, (args, y) :: cache) :=
    fun g => memof_hit g _ args y hh (Cache.lookup_insert cache args y)
  refine ⟨hstep, Cache.lookup_insert cache args y, hhit, ?_⟩
  intro n
  induction n with
  | zero => rfl
  | succ k ih => simp [List.replicate_succ, memofRun, hhit, ih]

/-- Witness for C1 at a concrete input: memoizing a function that returns
7 on the fresh argument tuple (2,) caches 7; a second call — even with a
different underlying function returning 99 — returns the cached 7. -/
theorem memoize_transparent_witness :
    memof (fun _ => .ok (.int 7)) [] [.int 2] []
      = .ok (.int 7, [([.int 2], .int 7)])
    ∧ memof (fun _ => .ok (.int 99)) [([.int 2], .int 7)] [.int 2] []
      = .ok (.int 7, [([.int 2], .int 7)]) :=
  ⟨(memoize_transparent (fun _ => .ok (.int 7)) [] [.int 2] (.int 7)
      rfl rfl rfl).1,
   (memoize_transparent (fun _ => .ok (.int 7)) [] [.int 2] (.int 7)
      rfl rfl rfl).2.2.1 (fun _ => .ok (.int 99))⟩

/-- Claim C2: `compose` of zero functions is the identity on a single
argument; `compose` of one function is that function itself unchanged;
`compose` of two or more functions invokes the last listed function with
all positional and keyword arguments and threads the single intermediate
result through the remaining functions in reverse listed order, each
applied to the previous result as sole argument; and the doctest
`compose(str, inc)(3) == "4"` holds. -/
theorem compose_semantics :
    (∀ x : PyVal, (compose []).call [x] [] = .ok x)
    ∧ (∀ f : Callable, compose [f] = f)
    ∧ (∀ (init : List Callable) (g : Callable), init ≠ [] →
        ∀ (args : List PyVal) (kwargs : List (String × PyVal)),
          (compose (init ++ [g])).call args kwargs =
            match g.call args kwargs with
            | .ok r => runChain r init.reverse
            | .error e => .error e)
    ∧ (compose [strFn, incFn]).call [.int 3] [] = .ok (.str "4") := by
  refine ⟨fun x => rfl, fun f => rfl, ?_, rfl⟩
  intro init g hne args kwargs
  obtain ⟨i1, itl, rfl⟩ := List.exists_cons_of_ne_nil hne
  exact compose_call_last i1 itl g args kwargs

/-- Witness for C2 at a concrete input: composing the two listed functions
str and inc applies inc (the last listed) to 3 first and threads the
result through str. -/
theorem compose_semantics_witness :
    ([strFn] ≠ ([] : List Callable))
    ∧ (compose ([strFn] ++ [incFn])).call [.int 3] [] =
        match incFn.call [.int 3] [] with
        | .ok r => runChain r [strFn].reverse
        | .error e => .error e :=
  ⟨by simp, compose_semantics.2.2.1 [strFn] incFn (by simp) [.int 3] []⟩

/-- Claim C3 counterexample: after a first call cached (1,) ↦ 5, a call
with the same positional argument 1 and the keyword argument x=3 is NOT a
cache hit returning the cached 5 — it fails with a TypeError, because the
memoized wrapper accepts positional arguments only. -/
theorem memof_kwargs_counterexample :
    memof (fun _ => .ok (.int 5)) [([.int 1], .int 5)] [.int 1]
        [("x", .int 3)]
      = .error (.typeError "memof() got an unexpected keyword argument")
    ∧ memof (fun _ => .ok (.int 5)) [([.int 1], .int 5)] [.int 1]
        [("x", .int 3)]
      ≠ .ok (.int 5, [([.int 1], .int 5)]) :=
  ⟨rfl, fun h => by simp [memof] at h⟩

/-- Claim C3 as amended: keyword arguments are not part of the cache key
and cannot distinguish calls, but not because they are ignored — the
memoized wrapper accepts positional arguments only, so every call passing
at least one keyword argument fails with a TypeError, without consulting
the cache and without invoking the underlying function. -/
theorem memof_rejects_kwargs (f : List PyVal → Except PyErr PyVal)
    (cache : Cache) (args : List PyVal) (k : String) (v : PyVal)
    (kws : List (String × PyVal)) :
    memof f cache args ((k, v) :: kws)
      = .error (.typeError "memof() got an unexpected keyword argument") := by
  simp [memof]

/-- Claim C4: calling a memoized function with an argument tuple that is
not hashable fails with the ArgumentsNotHashable error (a TypeError naming
the hashability requirement), for every underlying function — so the
underlying function is not invoked for that call. -/
theorem memoize_unhashable (f : List PyVal → Except PyErr PyVal)
    (cache : Cache) (args : List PyVal)
    (hunh : args.all PyVal.hashable = false) :
    memof f cache args [] = .error ArgumentsNotHashable := by
  simp [memof, hunh]

/-- Witness for C4 at a concrete input: a single list argument [1, 2, 3]
is unhashable and the call fails with ArgumentsNotHashable. -/
theorem memoize_unhashable_witness :
    ([PyVal.list [.int 1, .int 2, .int 3]].all PyVal.hashable = false)
    ∧ memof (fun _ => .ok .pynone) [] [PyVal.list [.int 1, .int 2, .int 3]] []
        = .error ArgumentsNotHashable :=
  ⟨rfl, memoize_unhashable (fun _ => .ok .pynone) []
    [PyVal.list [.int 1, .int 2, .int 3]] rfl⟩

/-- Claim C5: the displayed name of a composite of at least two functions
is "composed_" followed by the underscore-joined sanitized names of the
supplied functions in the original listed order; in particular composing
functions named foo and bar yields the name composed_foo_bar. -/
theorem compose_name_synthesis :
    (∀ (f1 f2 : Callable) (rest : List Callable),
      (compose (f1 :: f2 :: rest)).name
        = some ("composed_" ++ String.intercalate "_"
            ((f1 :: f2 :: rest).map safe_funcname)))
    ∧ (compose [fooFn, barFn]).name = some "composed_foo_bar" :=
  ⟨fun f1 f2 rest => rfl, by decide⟩

/-- Claim C6: the name sanitizer removes every character that is not an
ASCII letter, digit or underscore, then removes the leading run of
characters that are not a letter or underscore (so the result never starts
with a digit), then truncates to at most 32 characters; "a-b c!" maps to
"abc", "123abc" maps to "abc", a 40-character name truncates to exactly
its first 32 sanitized characters, and every output has length at most
32, consists of word characters only, and never starts with a non-letter,
non-underscore character. -/
theorem clean_name_spec :
    clean_name "a-b c!" = "abc"
    ∧ clean_name "123abc" = "abc"
    ∧ clean_name (String.mk (List.replicate 40 'a'))
        = String.mk (List.replicate 32 'a')
    ∧ (∀ s : String, (clean_name s).length ≤ 32)
    ∧ (∀ s : String, (clean_name s).toList.all isWordChar = true)
    ∧ (∀ s : String, ((clean_name s).toList.head?.all isIdentStart) = true) :=
  ⟨by decide, by decide, by decide, clean_name_length, clean_name_wordchars,
   clean_name_head⟩

/-- Claim C7: tracing with an explicit name yields a callable displayed
under exactly that name (regardless of the original name of the function),
with the documentation of the traced function copied over; tracing with an
explicit model callable yields a callable whose displayed name and
documentation equal those of the model. -/
theorem trace_identity_preservation :
    (∀ (f : Callable) (n : String),
      (trace f Option.none (some n)).name = some n
      ∧ (trace f Option.none (some n)).doc = f.doc)
    ∧ (∀ (f g : Callable),
      (trace f (some g) Option.none).name = g.name
      ∧ (trace f (some g) Option.none).doc = g.doc) :=
  ⟨fun _ _ => ⟨rfl, rfl⟩, fun _ _ => ⟨rfl, rfl⟩⟩

/-- Claim C8: the nested composition compose(f, compose(g, h)) and the
flat composition compose(f, g, h) are observably equivalent on every
input: same positional and keyword arguments yield the same result,
including the same propagated error. -/
theorem compose_nested_flat (f g h : Callable) (args : List PyVal)
    (kwargs : List (String × PyVal)) :
    (compose [f, compose [g, h]]).call args kwargs
      = (compose [f, g, h]).call args kwargs := by
  show (match (match h.call args kwargs with
               | .ok r => runChain r [g]
               | .error e => .error e) with
        | .ok r => runChain r [f]
        | .error e => .error e)
      = (match h.call args kwargs with
         | .ok r => runChain r [g, f]
         | .error e => .error e)
  cases h.call args kwargs with
  | error e => rfl
  | ok r =>
    show (match (match g.call [r] [] with
                 | .ok r2 => runChain r2 []
                 | .error e => .error e) with
          | .ok r => runChain r [f]
          | .error e => .error e)
        = (match g.call [r] [] with
           | .ok r2 => runChain r2 [f]
           | .error e => .error e)
    cases g.call [r] [] with
    | error e => rfl
    | ok r2 => rfl

/-- Claim C9: the safe-funcname operation never fails: it uses the legacy
name attribute when readable, falls back to the standard name attribute,
falls back to the printable representation, and in every case returns a
sanitized string (the sanitizer output of one of the three sources). -/
theorem safe_funcname_never_fails (f : Callable) :
    (∀ s : String, f.func_name = some s → safe_funcname f = clean_name s)
    ∧ (f.func_name = Option.none → ∀ s : String, f.name = some s →
        safe_funcname f = clean_name s)
    ∧ (f.func_name = Option.none → f.name = Option.none →
        safe_funcname f = clean_name f.rep)
    ∧ ∃ s : String, safe_funcname f = clean_name s := by
  refine ⟨fun s hs => by simp [safe_funcname, hs],
    fun h1 s hs => by simp [safe_funcname, h1, hs],
    fun h1 h2 => by simp [safe_funcname, h1, h2], ?_⟩
  unfold safe_funcname
  cases hfn : f.func_name with
  | some s => exact ⟨s, rfl⟩
  | none =>
    cases hn : f.name with
    | some s => exact ⟨s, rfl⟩
    | none => exact ⟨f.rep, rfl⟩

/-- Witness for C9 at a concrete input: a callable with no readable name
attributes falls back to its printable representation. -/
theorem safe_funcname_never_fails_witness :
    safe_funcname reprOnlyFn = clean_name reprOnlyFn.rep :=
  (safe_funcname_never_fails reprOnlyFn).2.2.1 rfl rfl

/-- Claim C10: when the underlying function raises on a fresh hashable
argument tuple, the memoized call propagates exactly that error, the
cache is left unchanged by the failing call, and a later call with the
same arguments invokes the underlying function again (a function that now
succeeds gets invoked and its fresh result cached, rather than a cached
failure being returned). -/
theorem memoize_error_propagation (f : List PyVal → Except PyErr PyVal)
    (cache : Cache) (args : List PyVal) (e : PyErr)
    (hh : args.all PyVal.hashable = true)
    (hmiss : cache.lookup args = Option.none)
    (hf : f args = .error e) :
    memof f cache args [] = .error e
    ∧ (memofRun f [args] cache).2 = cache
    ∧ ∀ (g : List PyVal → Except PyErr PyVal) (y : PyVal), g args = .ok y →
        memof g cache args [] = .ok (y, (args, y) :: cache) := by
  have herr : memof f cache args [] = .error e := by
    simp [memof, hh, hmiss, hf]
  refine ⟨herr, by simp [memofRun, herr], fun g y hg => ?_⟩
  simp [memof, hh, hmiss, hg]

/-- Witness for C10 at a concrete input: a function raising on (5,)
propagates its error and leaves the cache empty; a replacement function
returning 1 is then invoked and its result cached. -/
theorem memoize_error_propagation_witness :
    memof (fun _ => .error (.exn "boom")) [] [.int 5] []
      = .error (.exn "boom")
    ∧ (memofRun (fun _ => .error (.exn "boom")) [[.int 5]] []).2 = []
    ∧ memof (fun _ => .ok (.int 1)) [] [.int 5] []
      = .ok (.int 1, [([.int 5], .int 1)]) :=
  ⟨(memoize_error_propagation (fun _ => .error (.exn "boom")) [] [.int 5]
      (.exn "boom") rfl rfl rfl).1,
   (memoize_error_propagation (fun _ => .error (.exn "boom")) [] [.int 5]
      (.exn "boom") rfl rfl rfl).2.1,
   (memoize_error_propagation (fun _ => .error (.exn "boom")) [] [.int 5]
      (.exn "boom") rfl rfl rfl).2.2 (fun _ => .ok (.int 1)) (.int 1) rfl⟩

end Traced
